import Mathlib

/-!
Shallow embedding of the tg-feeds synchronizer (main.go).

Conventions of the embedding:
* Go strings are modelled as Lean values of type String; every string the
  claims touch is ASCII, so Go byte indexing and Lean character indexing
  coincide and len(s) is s.length.
* Go int is modelled as Int (the values involved never approach overflow).
* time.Time is modelled as Nat: only equality, ordering and the zero value
  are used by the program.  The ISO-8601 parse of a datetime attribute is
  abstracted to its outcome, an Option Nat (none = missing attribute or
  parse failure, for which time.Parse yields the zero time, modelled as 0).
* The remote pages handed to FetchChannel and FetchPost are modelled by the
  lists of strings/attributes that the goquery selectors would observe.
* The SQLite cache is modelled as an explicit CacheState; the only store
  failure a claim depends on (the SavePosts transaction failing to commit)
  is modelled by the savePostsOk flag of the fetch environment.
-/

/-- Post record of main.go (struct Post). -/
structure Post where
  header : String
  content : String
  link : String
  createdAt : Nat
deriving DecidableEq

/-- Channel record of main.go (struct Channel); lastId is the remote head id. -/
structure Channel where
  name : String
  title : String
  lastId : Int
  link : String
  description : String
deriving DecidableEq

/-- DbChannel row of main.go: a stored channel with its database id. -/
structure DbChannel where
  id : Nat
  name : String
  title : String
  lastId : Int
  link : String
  description : String
deriving DecidableEq

/-- DbPost row of main.go: a stored post with its database id and owner. -/
structure DbPost where
  id : Nat
  header : String
  content : String
  link : String
  createdAt : Nat
  channelId : Nat
deriving DecidableEq

/-- MAX_RSS_POSTS_COUNT constant of main.go. -/
def MAX_RSS_POSTS_COUNT : Nat := 20

/-- Go function tgChannelPostUrl of main.go. -/
def tgChannelPostUrl (channelName : String) (id : Int) : String :=
  "https://t.me/" ++ channelName ++ "/" ++ toString id ++ "?embed=1&mode=tme"

/-- Go function tgChannelFeedUrl of main.go. -/
def tgChannelFeedUrl (channelName : String) : String :=
  "https://t.me/s/" ++ channelName

/-- Result of a goquery Each loop that overwrites one variable per element:
the final value is the last text, or the given default when no element
matched.  Modelled as the fold the loop performs. -/
def lastText (texts : List String) : String :=
  texts.foldl (fun _ t => t) ""

/-- Go strings.Split with a one-character separator, on the character list
of the string.  Split of a string with no separator is the one-element list
holding the whole string. -/
def splitChar (sep : Char) : List Char → List (List Char)
  | [] => [[]]
  | c :: cs =>
    match splitChar sep cs with
    | [] => if c == sep then [[], []] else [[c]]
    | r :: rs => if c == sep then [] :: r :: rs else (c :: r) :: rs

/-- Value of a nonempty all-digit character list, or none. -/
def digitsVal : List Char → Option Nat → Option Nat
  | [], acc => acc
  | c :: cs, acc =>
    if c.isDigit then
      match acc with
      | none => digitsVal cs (some (c.toNat - 48))
      | some n => digitsVal cs (some (n * 10 + (c.toNat - 48)))
    else none

/-- Go strconv.Atoi with its error ignored, as main.go uses it: an optional
sign followed by at least one digit parses to its value, anything else
(including overflow, which we do not model) yields the zero value 0. -/
def goAtoi (l : List Char) : Int :=
  match l with
  | '-' :: rest => match digitsVal rest none with
    | some n => -(n : Int)
    | none => 0
  | '+' :: rest => match digitsVal rest none with
    | some n => (n : Int)
    | none => 0
  | _ => match digitsVal l none with
    | some n => (n : Int)
    | none => 0

/-- The numeric id a message element of the listing page carries: index 1 of
the split of its data-post attribute on the slash, fed to Atoi.  none when
the split has no index 1 (the Go code panics there). -/
def msgId (m : String) : Option Int :=
  ((splitChar '/' m.toList).get? 1).map goAtoi

/-- Decidable well-formedness of one message element: its data-post
attribute splits into at least two parts and the id part is nonnegative. -/
def msgOk (m : String) : Bool :=
  match msgId m with
  | some i => decide (0 ≤ i)
  | none => false

/-- A channel listing page as observed by the selectors of FetchChannel:
the data-post attributes of the message elements, and the header title and
description texts. -/
structure ChannelPage where
  messages : List String
  titleTexts : List String
  descriptionTexts : List String
deriving DecidableEq

/-- Outcome of FetchChannel: a parsed channel, the explicit parse error of
main.go, or a runtime abort (index out of range on split[1]). -/
inductive ChannelResult where
  | ok (channel : Channel)
  | parseError
  | panic
deriving DecidableEq

/-- The lastId scan of FetchChannel: fold over the message elements,
starting from the sentinel -1, keeping the largest id seen; none models the
Go panic when a data-post attribute has no slash (split[1] out of range). -/
def scanLastId : List String → Int → Option Int
  | [], lastId => some lastId
  | m :: ms, lastId =>
    match (splitChar '/' m.toList).get? 1 with
    | none => none
    | some idStr =>
      let currentId := goAtoi idStr
      scanLastId ms (if lastId = -1 ∨ currentId > lastId then currentId else lastId)

/-- Go method TelegramWebFetcher.FetchChannel of main.go, applied to the
listing page the channel URL returns. -/
def FetchChannel (channelName : String) (page : ChannelPage) : ChannelResult :=
  match scanLastId page.messages (-1) with
  | none => ChannelResult.panic
  | some lastId =>
    if lastId = -1 then ChannelResult.parseError
    else
      ChannelResult.ok
        { name := channelName
          title := lastText page.titleTexts
          lastId := lastId
          link := tgChannelFeedUrl channelName
          description := lastText page.descriptionTexts }

/-- Go strings.Trim with cutset a single space: drop leading and trailing
space characters. -/
def goTrimSpaces (s : String) : String :=
  String.mk (((s.toList.dropWhile (fun ch => ch == ' ')).reverse.dropWhile
    (fun ch => ch == ' ')).reverse)

/-- A single post page as observed by the selectors of FetchPost: the texts
of the error elements, the texts of the message-text blocks, and the
(abstracted) parse outcomes of the datetime attributes of the date
elements. -/
structure PostPage where
  errorTexts : List String
  textBlocks : List String
  dateAttrs : List (Option Nat)
deriving DecidableEq

/-- Go method TelegramWebFetcher.FetchPost of main.go, applied to the post
page the post URL returns.  none models a returned error (the page carries
a nonempty unavailable marker). -/
def FetchPost (channelName : String) (id : Int) (page : PostPage) : Option Post :=
  let url := tgChannelPostUrl channelName id
  let errorMessage := lastText page.errorTexts
  if errorMessage ≠ "" then none
  else
    let content := lastText page.textBlocks
    let createdAt := page.dateAttrs.foldl (fun _ a => a.getD 0) 0
    let headerContent :=
      if content.length > 100 then goTrimSpaces (content.take 100) ++ "..." else ""
    some
      { header := headerContent
        content := content ++ "\n\n" ++ "<a href=\"" ++ url ++ "\">[link]</a>"
        link := url
        createdAt := createdAt }

/-- The persistent store: channel rows, post rows, and the next fresh ids
SQLite would assign. -/
structure CacheState where
  channels : List DbChannel
  posts : List DbPost
  nextChannelId : Nat
  nextPostId : Nat
deriving DecidableEq

/-- SqliteCache.GetChannel: point lookup by name (none models the not-found
error of QueryRow). -/
def getChannel (st : CacheState) (name : String) : Option DbChannel :=
  st.channels.find? (fun c => c.name == name)

/-- SqliteCache.SaveChannel: insert a channel row, assigning a fresh id. -/
def saveChannel (st : CacheState) (channel : Channel) : DbChannel × CacheState :=
  let db : DbChannel :=
    { id := st.nextChannelId
      name := channel.name
      title := channel.title
      lastId := channel.lastId
      link := channel.link
      description := channel.description }
  (db, { st with channels := st.channels ++ [db], nextChannelId := st.nextChannelId + 1 })

/-- Row update of UpdateLastPostId: set lastId on the row with the given
database id, leave other rows unchanged. -/
def updateChannelRow (channelId : Nat) (lastPostId : Int) (c : DbChannel) : DbChannel :=
  if c.id == channelId then { c with lastId := lastPostId } else c

/-- SqliteCache.UpdateLastPostId: set lastId on the rows with the given
database id. -/
def updateLastPostId (st : CacheState) (channelId : Nat) (lastPostId : Int) : CacheState :=
  { st with channels := st.channels.map (updateChannelRow channelId lastPostId) }

/-- Relation of the ORDER BY createdAt DESC clause of the GetPosts query:
a row comes before a row with a smaller-or-equal timestamp. -/
def postAfter (a b : DbPost) : Prop := b.createdAt ≤ a.createdAt

instance : DecidableRel postAfter := fun a b => Nat.decLe b.createdAt a.createdAt

instance : IsTotal DbPost postAfter := ⟨fun a b => Nat.le_total b.createdAt a.createdAt⟩

instance : IsTrans DbPost postAfter := ⟨fun _ _ _ h1 h2 => Nat.le_trans h2 h1⟩

/-- SqliteCache.GetPosts: the rows of the channel, ordered by createdAt
descending (the SQLite tie order is unspecified; we fix the insertion-sort
order), limited to count. -/
def getPosts (st : CacheState) (channelId : Nat) (count : Nat) : List DbPost :=
  (List.insertionSort postAfter (st.posts.filter (fun p => p.channelId == channelId))).take count

/-- SqliteCache.SavePosts on the success path: insert every post in one
transaction, assigning fresh ids, and return the inserted rows. -/
def savePosts (st : CacheState) (channelId : Nat) (posts : List Post) :
    List DbPost × CacheState :=
  let newRows := posts.enum.map (fun ip =>
    { id := st.nextPostId + ip.1
      header := ip.2.header
      content := ip.2.content
      link := ip.2.link
      createdAt := ip.2.createdAt
      channelId := channelId : DbPost })
  (newRows, { st with posts := st.posts ++ newRows, nextPostId := st.nextPostId + posts.length })

/-- One entry of the generated syndication feed (gorilla/feeds Item, the
fields main.go fills). -/
structure FeedItem where
  title : String
  link : String
  description : String
  created : Nat
deriving DecidableEq

/-- The generated syndication feed (gorilla/feeds Feed, the fields main.go
fills). -/
structure GoFeed where
  title : String
  link : String
  description : String
  items : List FeedItem
deriving DecidableEq

/-- The zero feeds.Feed value that prepareFeed returns on its error and
save-failure paths. -/
def emptyGoFeed : GoFeed :=
  { title := "", link := "", description := "", items := [] }

/-- Mapping of one stored post to a feed item, as generateFeed performs. -/
def postToItem (p : DbPost) : FeedItem :=
  { title := p.header, link := p.link, description := p.content, created := p.createdAt }

/-- Go function generateFeed of main.go.  Note that the feed title is the
channel name field, as in the source. -/
def generateFeed (channel : DbChannel) (posts : List DbPost) : GoFeed :=
  { title := channel.name
    link := channel.link
    description := channel.description
    items := posts.map postToItem }

/-- The external world one call of prepareFeed sees: the head-fetch outcome,
the item-fetch outcome per id, and whether the SavePosts transaction would
commit. -/
structure FetchEnv where
  fetchChannel : Option Channel
  fetchPost : Int → Option Post
  savePostsOk : Bool

/-- The download loop of the stale path of prepareFeed, with an explicit
fuel argument to make the recursion structural.  The loop decrements postId
by exactly one per iteration and only runs while 0 < postId, so with fuel =
postId.toNat the fuel-exhausted case coincides with the loop guard being
false and the function computes exactly the Go loop.  Besides the collected
posts it returns the trace of ids handed to FetchPost. -/
def walkAux (fp : Int → Option Post) (cachedLastId : Int) :
    Nat → Int → List Post → List Int → List Post × List Int
  | 0, _, posts, fetched => (posts, fetched)
  | fuel + 1, postId, posts, fetched =>
    if 0 < postId ∧ posts.length < MAX_RSS_POSTS_COUNT then
      match fp postId with
      | none => walkAux fp cachedLastId fuel (postId - 1) posts (fetched ++ [postId])
      | some post =>
        if posts.getLast?.map Post.createdAt = some post.createdAt then
          walkAux fp cachedLastId fuel (postId - 1) posts (fetched ++ [postId])
        else if postId - 1 = cachedLastId then
          (posts, fetched ++ [postId])
        else
          walkAux fp cachedLastId fuel (postId - 1) (posts ++ [post]) (fetched ++ [postId])
    else (posts, fetched)

/-- The stale-path walk of prepareFeed, started as the Go code starts it. -/
def walk (fp : Int → Option Post) (cachedLastId : Int) (postId : Int)
    (posts : List Post) (fetched : List Int) : List Post × List Int :=
  walkAux fp cachedLastId postId.toNat postId posts fetched

/-- Result of one prepareFeed call: the feed and error returned to the
caller, the cache state afterwards, and two traces the claims inspect: the
ids handed to FetchPost and the posts collected by the walk. -/
structure SyncOutput where
  feed : GoFeed
  isError : Bool
  state : CacheState
  fetchedIds : List Int
  collected : List Post

/-- Go function prepareFeed of main.go, the synchronizer.  Every branch
mirrors the source: fatal head-fetch failure; channel creation on a missing
row; the freshness check; the stale walk; the unconditional cursor update;
and the SavePosts failure path, which logs and returns the empty outer feed
with a nil error. -/
def prepareFeed (env : FetchEnv) (st : CacheState) (channelName : String) : SyncOutput :=
  match env.fetchChannel with
  | none =>
    { feed := emptyGoFeed, isError := true, state := st, fetchedIds := [], collected := [] }
  | some channel =>
    let cached : DbChannel × CacheState :=
      match getChannel st channelName with
      | some db => (db, st)
      | none =>
        saveChannel st
          { name := channel.name
            title := channel.title
            lastId := 0
            link := channel.link
            description := channel.description }
    let dbCachedChannel := cached.1
    let st1 := cached.2
    if dbCachedChannel.lastId = channel.lastId then
      { feed := generateFeed dbCachedChannel (getPosts st1 dbCachedChannel.id MAX_RSS_POSTS_COUNT)
        isError := false
        state := st1
        fetchedIds := []
        collected := [] }
    else
      let r := walk env.fetchPost dbCachedChannel.lastId channel.lastId [] []
      let st2 := updateLastPostId st1 dbCachedChannel.id channel.lastId
      if env.savePostsOk then
        let saved := savePosts st2 dbCachedChannel.id r.1
        { feed := generateFeed dbCachedChannel saved.1
          isError := false
          state := saved.2
          fetchedIds := r.2
          collected := r.1 }
      else
        { feed := emptyGoFeed
          isError := false
          state := st2
          fetchedIds := r.2
          collected := r.1 }

/-- Spec-side description of the fetch trace of a stale walk: the k
strictly decreasing consecutive ids starting at p. -/
def descRun (p : Int) : Nat → List Int
  | 0 => []
  | k + 1 => p :: descRun (p - 1) k

/-- Spec-side ordering predicate: each adjacent pair of stored posts is in
createdAt-descending order. -/
def sortedDesc : List DbPost → Prop
  | [] => True
  | [_] => True
  | p :: q :: rest => q.createdAt ≤ p.createdAt ∧ sortedDesc (q :: rest)

/-- Injective timestamp assignment used by witnesses that need every
fetched item to carry a distinct creation time. -/
def encTime (i : Int) : Nat :=
  if 0 ≤ i then 2 * i.toNat else 2 * (-i).toNat + 1

/-- Stored state for the claim C1 counterexample: channel c cached with
cursor 1. -/
def c1st : CacheState :=
  { channels := [{ id := 1, name := "c", title := "t", lastId := 1, link := "l", description := "d" }]
    posts := [], nextChannelId := 2, nextPostId := 1 }

/-- Environment for the claim C1 counterexample: remote head 2, every
single-item fetch fails. -/
def c1env : FetchEnv :=
  { fetchChannel := some { name := "c", title := "t", lastId := 2, link := "l", description := "d" }
    fetchPost := fun _ => none
    savePostsOk := true }

/-- Stored state for the claim C1 amended witness: channel c cached with
cursor 0. -/
def c1wSt : CacheState :=
  { channels := [{ id := 1, name := "c", title := "t", lastId := 0, link := "l", description := "d" }]
    posts := [], nextChannelId := 2, nextPostId := 1 }

/-- Environment for the claim C1 amended witness: remote head 3, every
fetch succeeds with a distinct timestamp. -/
def c1wEnv : FetchEnv :=
  { fetchChannel := some { name := "c", title := "t", lastId := 3, link := "l", description := "d" }
    fetchPost := fun i => some { header := "", content := "", link := "", createdAt := encTime i }
    savePostsOk := true }

/-- Stored state for the claim C2 scenarios: channel c cached with cursor 0. -/
def c2st : CacheState :=
  { channels := [{ id := 1, name := "c", title := "t", lastId := 0, link := "l", description := "d" }]
    posts := [], nextChannelId := 2, nextPostId := 1 }

/-- Environment for the claim C2 scenarios: remote head 1, the fetch of id 1
succeeds, and the SavePosts transaction fails to commit. -/
def c2env : FetchEnv :=
  { fetchChannel := some { name := "c", title := "t", lastId := 1, link := "l", description := "d" }
    fetchPost := fun i =>
      if i == 1 then some { header := "", content := "x", link := "l1", createdAt := 4 } else none
    savePostsOk := false }

/-- Stored state for the claim C3 counterexample: channel c cached with
cursor 5. -/
def c3st : CacheState :=
  { channels := [{ id := 1, name := "c", title := "t", lastId := 5, link := "l", description := "d" }]
    posts := [], nextChannelId := 2, nextPostId := 1 }

/-- Environment for the claim C3 counterexample: the remote head has moved
backwards to 3, every single-item fetch fails. -/
def c3env : FetchEnv :=
  { fetchChannel := some { name := "c", title := "t", lastId := 3, link := "l", description := "d" }
    fetchPost := fun _ => none
    savePostsOk := true }

/-- Post page for the claim C4 counterexample: no unavailable marker, one
text block, and zero date elements. -/
def c4page : PostPage :=
  { errorTexts := [], textBlocks := ["hello"], dateAttrs := [] }

/-- Content for the claim C5 counterexample: 102 characters whose hundredth
character is a space, so the Trim call changes the snippet. -/
def c5content : String :=
  String.mk (List.replicate 99 'a' ++ [' ', 'b', 'b'])

/-- Post page for the claim C5 counterexample. -/
def c5page : PostPage :=
  { errorTexts := [], textBlocks := [c5content], dateAttrs := [some 5] }

/-- Stored state for the claim C6 witness: channel c cached with cursor 7
and three persisted posts with distinct timestamps. -/
def c6st : CacheState :=
  { channels := [{ id := 1, name := "c", title := "t", lastId := 7, link := "l", description := "d" }]
    posts :=
      [{ id := 1, header := "h1", content := "b1", link := "l1", createdAt := 10, channelId := 1 },
       { id := 2, header := "h2", content := "b2", link := "l2", createdAt := 30, channelId := 1 },
       { id := 3, header := "h3", content := "b3", link := "l3", createdAt := 20, channelId := 1 }]
    nextChannelId := 2, nextPostId := 4 }

/-- Environment for the claim C6 witness: the remote head equals the stored
cursor 7, so the cache is fresh. -/
def c6env : FetchEnv :=
  { fetchChannel := some { name := "c", title := "t", lastId := 7, link := "l", description := "d" }
    fetchPost := fun _ => none
    savePostsOk := true }

/-- Listing page for the claim C8 witness, the fixture scenario of the
repository test suite. -/
def c8page : ChannelPage :=
  { messages := ["lexfridman/291", "lexfridman/293", "lexfridman/290"]
    titleTexts := ["Lex Fridman"], descriptionTexts := ["d"] }

/-- Listing page for the claim C10 statement: one message whose data-post
attribute carries no slash. -/
def c10page : ChannelPage :=
  { messages := ["lexfridman291"], titleTexts := [], descriptionTexts := [] }

/-- Post returned by the fetch function of the claim C9 witness. -/
def c9post : Post :=
  { header := "", content := "x", link := "l3", createdAt := 9 }

/-- Fetch function of the claim C9 witness: only id 3 resolves. -/
def c9fp : Int → Option Post := fun i => if i == 3 then some c9post else none

/-- A fold of max over a list is at least its starting accumulator. -/
theorem foldl_max_ge_acc (l : List Int) (acc : Int) : acc ≤ l.foldl max acc := by
  induction l generalizing acc with
  | nil => exact le_refl acc
  | cons x xs ih => exact le_trans (le_max_left acc x) (ih (max acc x))

/-- A fold of max over a list is the accumulator or one of the elements. -/
theorem foldl_max_mem (l : List Int) (acc : Int) :
    l.foldl max acc = acc ∨ l.foldl max acc ∈ l := by
  induction l generalizing acc with
  | nil => exact Or.inl rfl
  | cons x xs ih =>
    rcases ih (max acc x) with h | h
    · rcases max_choice acc x with hm | hm
      · exact Or.inl (by rw [List.foldl_cons, h, hm])
      · exact Or.inr (by rw [List.foldl_cons, h, hm]; exact List.mem_cons_self x xs)
    · exact Or.inr (List.mem_cons_of_mem x h)

/-- A fold of max over a list bounds every element of the list. -/
theorem foldl_max_ub (l : List Int) (acc : Int) : ∀ i ∈ l, i ≤ l.foldl max acc := by
  induction l generalizing acc with
  | nil => intro i hi; cases hi
  | cons x xs ih =>
    intro i hi
    rcases List.mem_cons.1 hi with h | h
    · subst h
      exact le_trans (le_max_right acc i) (foldl_max_ge_acc xs (max acc i))
    · exact ih (max acc x) i h

/-- Pairwise createdAt-descending order gives the adjacent-pairs ordering
predicate. -/
theorem sortedDesc_of_sorted (l : List DbPost) (h : l.Sorted postAfter) : sortedDesc l := by
  induction l with
  | nil => trivial
  | cons p ps ih =>
    cases ps with
    | nil => trivial
    | cons q qs =>
      rw [List.sorted_cons] at h
      exact ⟨h.1 q (List.mem_cons_self q qs), ih h.2⟩

/-- The rows GetPosts returns are in createdAt-descending order. -/
theorem getPosts_sortedDesc (st : CacheState) (channelId : Nat) (count : Nat) :
    sortedDesc (getPosts st channelId count) := by
  apply sortedDesc_of_sorted
  exact List.Pairwise.sublist (List.take_sublist count _)
    (List.sorted_insertionSort postAfter _)

/-- GetPosts returns at most the requested number of rows. -/
theorem getPosts_length_le (st : CacheState) (channelId : Nat) (count : Nat) :
    (getPosts st channelId count).length ≤ count := by
  unfold getPosts
  simp

/-- The row update of UpdateLastPostId keeps the name of every row. -/
theorem updateChannelRow_name (cid : Nat) (v : Int) (c : DbChannel) :
    (updateChannelRow cid v c).name = c.name := by
  unfold updateChannelRow
  split <;> rfl

/-- Point lookup after UpdateLastPostId: the row found by name is the row
found before, with its lastId replaced when its database id matches. -/
theorem getChannel_updateLastPostId (st : CacheState) (cid : Nat) (v : Int) (name : String) :
    getChannel (updateLastPostId st cid v) name =
      (getChannel st name).map (updateChannelRow cid v) := by
  unfold getChannel updateLastPostId
  induction st.channels with
  | nil => rfl
  | cons c cs ih =>
    simp only [List.map_cons, List.find?_cons]
    rw [updateChannelRow_name]
    cases hc : (c.name == name) with
    | true => rfl
    | false => exact ih

/-- Point lookup is unaffected by SavePosts (which only touches post rows). -/
theorem getChannel_savePosts (st : CacheState) (cid : Nat) (posts : List Post) (name : String) :
    getChannel (savePosts st cid posts).2 name = getChannel st name := rfl

/-- The walk never collects more than the post cap: the loop guard checks
the collected count before every append. -/
theorem walkAux_length_le (fp : Int → Option Post) (cached : Int) :
    ∀ (fuel : Nat) (postId : Int) (posts : List Post) (fetched : List Int),
      posts.length ≤ MAX_RSS_POSTS_COUNT →
      (walkAux fp cached fuel postId posts fetched).1.length ≤ MAX_RSS_POSTS_COUNT := by
  intro fuel
  induction fuel with
  | zero => intro postId posts fetched h; exact h
  | succ n ih =>
    intro postId posts fetched h
    rw [walkAux]
    split
    next hcond =>
      split
      next => exact ih _ _ _ h
      next post heq =>
        split
        next => exact ih _ _ _ h
        next =>
          split
          next => exact h
          next =>
            refine ih _ _ _ ?_
            simp only [List.length_append, List.length_singleton]
            omega
    next => exact h

/-- The fetch trace of the walk extends the accumulator by a run of
strictly decreasing consecutive ids starting at the current candidate, and
the run is nonempty whenever the loop guard holds on entry. -/
theorem walkAux_fetched_run (fp : Int → Option Post) (cached : Int) :
    ∀ (fuel : Nat) (postId : Int) (posts : List Post) (fetched : List Int),
      postId.toNat ≤ fuel →
      ∃ k, (walkAux fp cached fuel postId posts fetched).2 = fetched ++ descRun postId k ∧
        ((0 < postId ∧ posts.length < MAX_RSS_POSTS_COUNT) → 1 ≤ k) := by
  intro fuel
  induction fuel with
  | zero =>
    intro postId posts fetched hf
    exact ⟨0, by simp [walkAux, descRun], fun hcond => absurd hf (by omega)⟩
  | succ n ih =>
    intro postId posts fetched hf
    rw [walkAux]
    split
    next hcond =>
      have hf' : (postId - 1).toNat ≤ n := by omega
      split
      next =>
        obtain ⟨k, hk, _⟩ := ih (postId - 1) posts (fetched ++ [postId]) hf'
        refine ⟨k + 1, ?_, fun _ => by omega⟩
        rw [hk, descRun, List.append_assoc]
        rfl
      next post heq =>
        split
        next =>
          obtain ⟨k, hk, _⟩ := ih (postId - 1) posts (fetched ++ [postId]) hf'
          refine ⟨k + 1, ?_, fun _ => by omega⟩
          rw [hk, descRun, List.append_assoc]
          rfl
        next =>
          split
          next => exact ⟨1, by rw [descRun, descRun], fun _ => le_refl 1⟩
          next =>
            obtain ⟨k, hk, _⟩ := ih (postId - 1) (posts ++ [post]) (fetched ++ [postId]) hf'
            refine ⟨k + 1, ?_, fun _ => by omega⟩
            rw [hk, descRun, List.append_assoc]
            rfl
    next hcond =>
      exact ⟨0, by simp [descRun], fun h => absurd h hcond⟩

/-- When every single-item fetch succeeds and all fetched items carry
pairwise distinct timestamps, the boundary break fires exactly at the
stored cursor and the walk never hands an id at or below the cursor to the
fetcher.  The posts invariant records that everything collected so far came
from a fetch of a larger id. -/
theorem walkAux_ids_gt (fp : Int → Option Post) (cached : Int)
    (hsucc : ∀ i : Int, (fp i).isSome)
    (hdist : ∀ (i j : Int) (p q : Post), fp i = some p → fp j = some q →
      i ≠ j → p.createdAt ≠ q.createdAt) :
    ∀ (fuel : Nat) (postId : Int) (posts : List Post) (fetched : List Int),
      postId.toNat ≤ fuel → 0 ≤ cached → cached < postId →
      (∀ q ∈ posts, ∃ j, postId < j ∧ fp j = some q) →
      (∀ x ∈ fetched, cached < x) →
      ∀ x ∈ (walkAux fp cached fuel postId posts fetched).2, cached < x := by
  intro fuel
  induction fuel with
  | zero =>
    intro postId posts fetched hf hc hcp hposts hfetched
    exact fun x hx => hfetched x hx
  | succ n ih =>
    intro postId posts fetched hf hc hcp hposts hfetched
    rw [walkAux]
    split
    next hcond =>
      cases hfp : fp postId with
      | none => exact absurd (hsucc postId) (by rw [hfp]; simp)
      | some post =>
        have hdup : ¬ (posts.getLast?.map Post.createdAt = some post.createdAt) := by
          intro hEq
          cases hgl : posts.getLast? with
          | none => rw [hgl] at hEq; exact Option.noConfusion hEq
          | some q =>
            rw [hgl] at hEq
            have hq : q.createdAt = post.createdAt := Option.some.inj hEq
            obtain ⟨j, hj, hfpj⟩ := hposts q (List.mem_of_mem_getLast? hgl)
            exact hdist j postId q post hfpj hfp (by omega) hq
        dsimp only
        rw [if_neg hdup]
        by_cases hbreak : postId - 1 = cached
        · rw [if_pos hbreak]
          intro x hx
          rcases List.mem_append.1 hx with h | h
          · exact hfetched x h
          · have : x = postId := List.mem_singleton.1 h
            omega
        · rw [if_neg hbreak]
          refine ih (postId - 1) (posts ++ [post]) (fetched ++ [postId])
            (by omega) hc (by omega) ?_ ?_
          · intro q hq
            rcases List.mem_append.1 hq with h | h
            · obtain ⟨j, hj1, hj2⟩ := hposts q h
              exact ⟨j, by omega, hj2⟩
            · have : q = post := List.mem_singleton.1 h
              subst this
              exact ⟨postId, by omega, hfp⟩
          · intro x hx
            rcases List.mem_append.1 hx with h | h
            · exact hfetched x h
            · have : x = postId := List.mem_singleton.1 h
              omega
    next hcond =>
      exact fun x hx => hfetched x hx

/-- Characterization of a fresh sync on a cached channel: no state change,
no fetches, the feed is built from the stored rows. -/
theorem prepareFeed_fresh (env : FetchEnv) (st : CacheState) (name : String)
    (ch : Channel) (db : DbChannel)
    (hfc : env.fetchChannel = some ch)
    (hget : getChannel st name = some db)
    (heq : db.lastId = ch.lastId) :
    prepareFeed env st name =
      { feed := generateFeed db (getPosts st db.id MAX_RSS_POSTS_COUNT)
        isError := false
        state := st
        fetchedIds := []
        collected := [] } := by
  simp only [prepareFeed, hfc, hget]
  rw [if_pos heq]

/-- Characterization of a stale sync on a cached channel: the walk runs,
the cursor is committed, and the append either commits or is dropped with
the empty feed and a nil error. -/
theorem prepareFeed_stale (env : FetchEnv) (st : CacheState) (name : String)
    (ch : Channel) (db : DbChannel)
    (hfc : env.fetchChannel = some ch)
    (hget : getChannel st name = some db)
    (hne : db.lastId ≠ ch.lastId) :
    prepareFeed env st name =
      if env.savePostsOk then
        { feed := generateFeed db (savePosts (updateLastPostId st db.id ch.lastId) db.id
            (walk env.fetchPost db.lastId ch.lastId [] []).1).1
          isError := false
          state := (savePosts (updateLastPostId st db.id ch.lastId) db.id
            (walk env.fetchPost db.lastId ch.lastId [] []).1).2
          fetchedIds := (walk env.fetchPost db.lastId ch.lastId [] []).2
          collected := (walk env.fetchPost db.lastId ch.lastId [] []).1 }
      else
        { feed := emptyGoFeed
          isError := false
          state := updateLastPostId st db.id ch.lastId
          fetchedIds := (walk env.fetchPost db.lastId ch.lastId [] []).2
          collected := (walk env.fetchPost db.lastId ch.lastId [] []).1 } := by
  simp only [prepareFeed, hfc, hget]
  rw [if_neg hne]

/-- Every id the message elements carry is nonnegative when every message
is well formed. -/
theorem filterMap_msgId_nonneg (msgs : List String)
    (h : ∀ m ∈ msgs, msgOk m = true) : ∀ i ∈ msgs.filterMap msgId, 0 ≤ i := by
  intro i hi
  obtain ⟨m, hm, hmi⟩ := List.mem_filterMap.1 hi
  have hok := h m hm
  simp only [msgOk, hmi] at hok
  exact of_decide_eq_true hok

/-- On a listing page whose message elements are all well formed, the
lastId scan computes the fold of max over the carried ids. -/
theorem scanLastId_eq_foldl (msgs : List String) :
    (∀ m ∈ msgs, msgOk m = true) → ∀ acc : Int, -1 ≤ acc →
      scanLastId msgs acc = some ((msgs.filterMap msgId).foldl max acc) := by
  induction msgs with
  | nil => intro _ acc _; rfl
  | cons m ms ih =>
    intro h acc hacc
    have hm := h m (List.mem_cons_self m ms)
    cases hmid : msgId m with
    | none =>
      simp only [msgOk, hmid] at hm
      exact Bool.noConfusion hm
    | some i =>
      have hi : 0 ≤ i := by
        simp only [msgOk, hmid] at hm
        exact of_decide_eq_true hm
      obtain ⟨s, hs1, hs2⟩ := Option.map_eq_some'.mp hmid
      rw [scanLastId, hs1]
      dsimp only
      have hstep : (if acc = -1 ∨ goAtoi s > acc then goAtoi s else acc) = max acc i := by
        rw [hs2]
        by_cases h2 : acc ≤ i
        · rw [max_eq_right h2]
          by_cases h1 : acc = -1
          · rw [if_pos (Or.inl h1)]
          · have h3 : i > acc ∨ i = acc := by omega
            rcases h3 with h3 | h3
            · rw [if_pos (Or.inr h3)]
            · rw [h3]
              simp
        · push_neg at h2
          rw [max_eq_left (le_of_lt h2)]
          rw [if_neg]
          push_neg
          exact ⟨by omega, by omega⟩
      rw [hstep]
      rw [List.filterMap_cons_some hmid, List.foldl_cons]
      exact ih (fun x hx => h x (List.mem_cons_of_mem m hx)) (max acc i)
        (le_trans hacc (le_max_left acc i))

/-- The split of a character list is never empty. -/
theorem splitChar_length_pos (sep : Char) (s : List Char) :
    1 ≤ (splitChar sep s).length := by
  cases s with
  | nil => exact le_refl 1
  | cons c cs =>
    rw [splitChar]
    split
    · split <;> simp
    · split <;> simp

/-- The split of a character list containing the separator has at least two
parts. -/
theorem splitChar_length_two (sep : Char) (s : List Char) (h : sep ∈ s) :
    2 ≤ (splitChar sep s).length := by
  induction s with
  | nil => cases h
  | cons c cs ih =>
    rw [splitChar]
    split
    next heq =>
      exact absurd (splitChar_length_pos sep cs) (by rw [heq]; simp)
    next r rs heq =>
      by_cases hc : c = sep
      · rw [if_pos (by exact beq_iff_eq.mpr hc)]
        simp
      · rw [if_neg (by simpa using hc)]
        have hmem : sep ∈ cs := by
          rcases List.mem_cons.1 h with h1 | h1
          · exact absurd h1.symm hc
          · exact h1
        have h2 := ih hmem
        rw [heq] at h2
        simp only [List.length_cons] at h2 ⊢
        omega

/-- When every message attribute contains the separator, the lastId scan
completes without the out-of-range abort. -/
theorem scanLastId_isSome (msgs : List String)
    (h : ∀ m ∈ msgs, '/' ∈ m.toList) : ∀ acc, (scanLastId msgs acc).isSome := by
  induction msgs with
  | nil => intro acc; rfl
  | cons m ms ih =>
    intro acc
    have h2 := splitChar_length_two '/' m.toList (h m (List.mem_cons_self m ms))
    rw [scanLastId]
    cases hsp : (splitChar '/' m.toList).get? 1 with
    | none =>
      rw [List.get?_eq_none] at hsp
      omega
    | some s =>
      dsimp only
      exact ih (fun x hx => h x (List.mem_cons_of_mem m hx)) _

/-- Distinct integers receive distinct encoded timestamps. -/
theorem encTime_inj (i j : Int) (h : i ≠ j) : encTime i ≠ encTime j := by
  unfold encTime
  split_ifs <;> omega

/-- The row update applied to the row whose id matches replaces exactly the
lastId field. -/
theorem updateChannelRow_self (cid : Nat) (v : Int) (c : DbChannel) (h : c.id = cid) :
    updateChannelRow cid v c = { c with lastId := v } := by
  unfold updateChannelRow
  rw [if_pos (by simp [h])]

/-- After any stale sync on a cached channel, whatever the fetch outcomes
and whether or not the append commits, the stored cursor equals the remote
head id. -/
theorem stale_cursor_committed (env : FetchEnv) (st : CacheState) (name : String)
    (ch : Channel) (db : DbChannel)
    (hfc : env.fetchChannel = some ch)
    (hget : getChannel st name = some db)
    (hne : db.lastId ≠ ch.lastId) :
    getChannel (prepareFeed env st name).state name = some { db with lastId := ch.lastId } := by
  rw [prepareFeed_stale env st name ch db hfc hget hne]
  by_cases hs : env.savePostsOk
  · rw [if_pos hs]
    dsimp only
    rw [getChannel_savePosts, getChannel_updateLastPostId, hget, Option.map_some']
    rw [updateChannelRow_self db.id ch.lastId db rfl]
  · rw [if_neg hs]
    dsimp only
    rw [getChannel_updateLastPostId, hget, Option.map_some']
    rw [updateChannelRow_self db.id ch.lastId db rfl]

/-- The fetch trace and the collected posts of a stale sync are those of
the walk started at the remote head with the stored cursor as boundary. -/
theorem prepareFeed_stale_traces (env : FetchEnv) (st : CacheState) (name : String)
    (ch : Channel) (db : DbChannel)
    (hfc : env.fetchChannel = some ch)
    (hget : getChannel st name = some db)
    (hne : db.lastId ≠ ch.lastId) :
    (prepareFeed env st name).fetchedIds = (walk env.fetchPost db.lastId ch.lastId [] []).2 ∧
    (prepareFeed env st name).collected = (walk env.fetchPost db.lastId ch.lastId [] []).1 := by
  rw [prepareFeed_stale env st name ch db hfc hget hne]
  by_cases hs : env.savePostsOk
  · rw [if_pos hs]
    exact ⟨rfl, rfl⟩
  · rw [if_neg hs]
    exact ⟨rfl, rfl⟩

/-- Claim C6: for every sync where the stored cursor equals the remote head
id, no single-item fetch is issued and the call returns, without error, the
store's most recent persisted items, at most 20, ordered by createdAt
descending. -/
theorem claim6_fresh_sync (env : FetchEnv) (st : CacheState) (name : String)
    (ch : Channel) (db : DbChannel)
    (hfc : env.fetchChannel = some ch)
    (hget : getChannel st name = some db)
    (heq : db.lastId = ch.lastId) :
    (prepareFeed env st name).fetchedIds = [] ∧
    (prepareFeed env st name).isError = false ∧
    (prepareFeed env st name).feed.items =
      (getPosts st db.id MAX_RSS_POSTS_COUNT).map postToItem ∧
    sortedDesc (getPosts st db.id MAX_RSS_POSTS_COUNT) ∧
    (prepareFeed env st name).feed.items.length ≤ MAX_RSS_POSTS_COUNT := by
  rw [prepareFeed_fresh env st name ch db hfc hget heq]
  refine ⟨rfl, rfl, rfl, getPosts_sortedDesc st db.id _, ?_⟩
  dsimp only [generateFeed]
  rw [List.length_map]
  exact getPosts_length_le st db.id _

/-- Witness for claim C6 at a concrete fresh state: cursor 7 equals head 7,
three stored posts. -/
theorem claim6_witness :
    (prepareFeed c6env c6st "c").fetchedIds = [] ∧
    (prepareFeed c6env c6st "c").isError = false ∧
    (prepareFeed c6env c6st "c").feed.items =
      (getPosts c6st 1 MAX_RSS_POSTS_COUNT).map postToItem ∧
    sortedDesc (getPosts c6st 1 MAX_RSS_POSTS_COUNT) ∧
    (prepareFeed c6env c6st "c").feed.items.length ≤ MAX_RSS_POSTS_COUNT :=
  claim6_fresh_sync c6env c6st "c"
    { name := "c", title := "t", lastId := 7, link := "l", description := "d" }
    { id := 1, name := "c", title := "t", lastId := 7, link := "l", description := "d" }
    rfl rfl rfl

/-- Claim C7: after every stale sync on a cached channel the stored cursor
is updated to the remote head id, independently of how many individual item
fetches failed (the fetch outcomes are arbitrary). -/
theorem claim7_cursor_equals_head (env : FetchEnv) (st : CacheState) (name : String)
    (ch : Channel) (db : DbChannel)
    (hfc : env.fetchChannel = some ch)
    (hget : getChannel st name = some db)
    (hne : db.lastId ≠ ch.lastId) :
    getChannel (prepareFeed env st name).state name = some { db with lastId := ch.lastId } :=
  stale_cursor_committed env st name ch db hfc hget hne

/-- Witness for claim C7 at a concrete stale state: stored cursor 5, remote
head 3, every item fetch failing. -/
theorem claim7_witness :
    getChannel (prepareFeed c3env c3st "c").state "c" =
      some { id := 1, name := "c", title := "t", lastId := 3, link := "l", description := "d" } :=
  claim7_cursor_equals_head c3env c3st "c"
    { name := "c", title := "t", lastId := 3, link := "l", description := "d" }
    { id := 1, name := "c", title := "t", lastId := 5, link := "l", description := "d" }
    rfl rfl (by decide)

/-- Counterexample to claim C2 as stated: at this concrete stale sync the
atomic item append fails after the cursor update has been committed, yet
prepareFeed returns a nil error (isError is false), not an error; the
caller receives the empty feed. -/
theorem claim2_counterexample :
    c2env.savePostsOk = false ∧
    (getChannel c2st "c").map DbChannel.lastId = some 0 ∧
    c2env.fetchChannel =
      some { name := "c", title := "t", lastId := 1, link := "l", description := "d" } ∧
    (prepareFeed c2env c2st "c").isError = false ∧
    (prepareFeed c2env c2st "c").feed = emptyGoFeed := by
  decide

/-- Claim C2 amended: when the atomic item append fails after the cursor
update has been committed, the caller receives the empty feed with a nil
error (the failure is only logged), and the cursor remains advanced to the
remote head. -/
theorem claim2_amended (env : FetchEnv) (st : CacheState) (name : String)
    (ch : Channel) (db : DbChannel)
    (hfc : env.fetchChannel = some ch)
    (hget : getChannel st name = some db)
    (hne : db.lastId ≠ ch.lastId)
    (hsave : env.savePostsOk = false) :
    (prepareFeed env st name).isError = false ∧
    (prepareFeed env st name).feed = emptyGoFeed ∧
    getChannel (prepareFeed env st name).state name = some { db with lastId := ch.lastId } := by
  refine ⟨?_, ?_, stale_cursor_committed env st name ch db hfc hget hne⟩
  all_goals rw [prepareFeed_stale env st name ch db hfc hget hne, if_neg (by simp [hsave])]

/-- Witness for the amended claim C2 at a concrete failing append. -/
theorem claim2_witness :
    (prepareFeed c2env c2st "c").isError = false ∧
    (prepareFeed c2env c2st "c").feed = emptyGoFeed ∧
    getChannel (prepareFeed c2env c2st "c").state "c" =
      some { id := 1, name := "c", title := "t", lastId := 1, link := "l", description := "d" } :=
  claim2_amended c2env c2st "c"
    { name := "c", title := "t", lastId := 1, link := "l", description := "d" }
    { id := 1, name := "c", title := "t", lastId := 0, link := "l", description := "d" }
    rfl rfl (by decide) rfl

/-- Counterexample to claim C3 as stated: the stored cursor is 5, the
remote head id has moved backwards to 3, and the sync overwrites the cursor
with 3, so the stored cursor decreases. -/
theorem claim3_counterexample :
    (getChannel c3st "c").map DbChannel.lastId = some 5 ∧
    c3env.fetchChannel =
      some { name := "c", title := "t", lastId := 3, link := "l", description := "d" } ∧
    (getChannel (prepareFeed c3env c3st "c").state "c").map DbChannel.lastId = some 3 ∧
    (3 : Int) < 5 := by
  decide

/-- Claim C3 amended: the stored cursor never decreases across syncs
provided every observed remote head id is at least the stored cursor; a
sync always leaves the cursor at its old value (fresh path) or at the
remote head id (stale path). -/
theorem claim3_amended (env : FetchEnv) (st : CacheState) (name : String)
    (ch : Channel) (db : DbChannel)
    (hfc : env.fetchChannel = some ch)
    (hget : getChannel st name = some db)
    (hle : db.lastId ≤ ch.lastId) :
    ∃ c, getChannel (prepareFeed env st name).state name = some c ∧ db.lastId ≤ c.lastId := by
  by_cases heq : db.lastId = ch.lastId
  · rw [prepareFeed_fresh env st name ch db hfc hget heq]
    exact ⟨db, hget, le_refl _⟩
  · exact ⟨{ db with lastId := ch.lastId },
      stale_cursor_committed env st name ch db hfc hget heq, hle⟩

/-- Witness for the amended claim C3 at a concrete stale sync whose remote
head 2 is above the stored cursor 1. -/
theorem claim3_witness :
    ∃ c, getChannel (prepareFeed c1env c1st "c").state "c" = some c ∧ (1 : Int) ≤ c.lastId :=
  claim3_amended c1env c1st "c"
    { name := "c", title := "t", lastId := 2, link := "l", description := "d" }
    { id := 1, name := "c", title := "t", lastId := 1, link := "l", description := "d" }
    rfl rfl (by decide)

/-- Counterexample to claim C1 as stated: stored cursor 1 is below remote
head 2, the fetch of id 2 fails, and the walk then hands id 1 — an id less
than or equal to the stored cursor — to the fetcher, because the boundary
break only runs after a successful non-duplicate fetch. -/
theorem claim1_counterexample :
    (getChannel c1st "c").map DbChannel.lastId = some 1 ∧
    c1env.fetchChannel =
      some { name := "c", title := "t", lastId := 2, link := "l", description := "d" } ∧
    (1 : Int) ∈ (prepareFeed c1env c1st "c").fetchedIds := by
  decide

/-- Claim C1 amended: when the stored cursor is below the remote head id,
the walk fetches strictly decreasing consecutive ids starting at the remote
head id and collects at most 20 items; it never issues a fetch for an id at
or below the stored cursor provided every single-item fetch succeeds and
all fetched items carry pairwise distinct timestamps (a fetch failure or an
adjacent-duplicate discard at id cursor+1 skips the boundary break and lets
the walk continue past the cursor). -/
theorem claim1_amended (env : FetchEnv) (st : CacheState) (name : String)
    (ch : Channel) (db : DbChannel)
    (hfc : env.fetchChannel = some ch)
    (hget : getChannel st name = some db)
    (hc0 : 0 ≤ db.lastId)
    (hlt : db.lastId < ch.lastId)
    (hsucc : ∀ i : Int, (env.fetchPost i).isSome)
    (hdist : ∀ (i j : Int) (p q : Post), env.fetchPost i = some p →
      env.fetchPost j = some q → i ≠ j → p.createdAt ≠ q.createdAt) :
    (∃ k, 1 ≤ k ∧ (prepareFeed env st name).fetchedIds = descRun ch.lastId k) ∧
    (∀ x ∈ (prepareFeed env st name).fetchedIds, db.lastId < x) ∧
    (prepareFeed env st name).collected.length ≤ MAX_RSS_POSTS_COUNT := by
  have hne : db.lastId ≠ ch.lastId := ne_of_lt hlt
  obtain ⟨htrace, hcoll⟩ := prepareFeed_stale_traces env st name ch db hfc hget hne
  refine ⟨?_, ?_, ?_⟩
  · rw [htrace]
    obtain ⟨k, hk, hk1⟩ :=
      walkAux_fetched_run env.fetchPost db.lastId ch.lastId.toNat ch.lastId [] []
        (le_refl ch.lastId.toNat)
    refine ⟨k, hk1 ⟨by omega, by norm_num [MAX_RSS_POSTS_COUNT]⟩, ?_⟩
    rw [walk, hk]
    rfl
  · rw [htrace]
    exact walkAux_ids_gt env.fetchPost db.lastId hsucc hdist ch.lastId.toNat ch.lastId [] []
      (le_refl ch.lastId.toNat) hc0 hlt (fun q hq => absurd hq (List.not_mem_nil q))
      (fun x hx => absurd hx (List.not_mem_nil x))
  · rw [hcoll]
    exact walkAux_length_le env.fetchPost db.lastId ch.lastId.toNat ch.lastId [] []
      (by norm_num [MAX_RSS_POSTS_COUNT])

/-- Witness for the amended claim C1: stored cursor 0, remote head 3, every
fetch succeeding with distinct timestamps; the walk fetches 3, 2 and stops
at the boundary. -/
theorem claim1_witness :
    (∃ k, 1 ≤ k ∧ (prepareFeed c1wEnv c1wSt "c").fetchedIds = descRun 3 k) ∧
    (∀ x ∈ (prepareFeed c1wEnv c1wSt "c").fetchedIds, (0 : Int) < x) ∧
    (prepareFeed c1wEnv c1wSt "c").collected.length ≤ MAX_RSS_POSTS_COUNT :=
  claim1_amended c1wEnv c1wSt "c"
    { name := "c", title := "t", lastId := 3, link := "l", description := "d" }
    { id := 1, name := "c", title := "t", lastId := 0, link := "l", description := "d" }
    rfl rfl (by decide) (by decide)
    (fun _ => rfl)
    (by
      intro i j p q hp hq hij
      simp only [c1wEnv] at hp hq
      cases hp
      cases hq
      exact encTime_inj i j hij)

/-- Counterexample to claim C4 as stated: on a post page with zero date
elements there is no resolvable creation timestamp, yet the single-item
fetch succeeds (it does not fail with an error) and returns the zero
timestamp, which a sync would then persist. -/
theorem claim4_counterexample :
    c4page.dateAttrs = [] ∧
    (FetchPost "lexfridman" 272 c4page).isSome = true ∧
    (FetchPost "lexfridman" 272 c4page).map Post.createdAt = some 0 := by
  decide

/-- Claim C4 amended: a single-item fetch fails only on an unavailable
marker; when the marker is absent the fetch succeeds even with zero date
elements, returning the zero creation timestamp (a missing or unparsable
timestamp is only logged), so an item with no resolvable createdAt can be
returned and persisted. -/
theorem claim4_amended (name : String) (id : Int) (page : PostPage)
    (herr : lastText page.errorTexts = "")
    (hdate : page.dateAttrs = []) :
    ∃ p, FetchPost name id page = some p ∧ p.createdAt = 0 := by
  simp only [FetchPost, herr, hdate]
  exact ⟨_, rfl, rfl⟩

/-- Witness for the amended claim C4 at the concrete dateless page. -/
theorem claim4_witness :
    ∃ p, FetchPost "lexfridman" 272 c4page = some p ∧ p.createdAt = 0 :=
  claim4_amended "lexfridman" 272 c4page rfl rfl

set_option maxRecDepth 16384 in
/-- Counterexample to claim C5 as stated: a 102-character content whose
hundredth character is a space; the produced header is not the first 100
characters plus the ellipsis marker, because the Trim call removes the
trailing space first. -/
theorem claim5_counterexample :
    c5content.length > 100 ∧
    (FetchPost "c" 1 c5page).map Post.header ≠ some (c5content.take 100 ++ "...") ∧
    (FetchPost "c" 1 c5page).map Post.header =
      some (String.mk (List.replicate 99 'a') ++ "...") := by
  decide

/-- Claim C5 amended: for every fetched item the header snippet is the
first 100 characters of the source content with leading and trailing
spaces trimmed, followed by the ellipsis marker, when the content length
exceeds 100; otherwise it is empty. -/
theorem claim5_amended (name : String) (id : Int) (page : PostPage)
    (herr : lastText page.errorTexts = "") :
    ∃ p, FetchPost name id page = some p ∧
      p.header = (if (lastText page.textBlocks).length > 100
        then goTrimSpaces ((lastText page.textBlocks).take 100) ++ "..."
        else "") := by
  simp only [FetchPost, herr]
  exact ⟨_, rfl, rfl⟩

/-- Witness for the amended claim C5 at the concrete 102-character page. -/
theorem claim5_witness :
    ∃ p, FetchPost "c" 1 c5page = some p ∧
      p.header = (if (lastText c5page.textBlocks).length > 100
        then goTrimSpaces ((lastText c5page.textBlocks).take 100) ++ "..."
        else "") :=
  claim5_amended "c" 1 c5page rfl

/-- Claim C8: for every listing page whose message elements are well formed
and carry nonnegative ids, the head lookup succeeds and the derived head id
is the maximum of the carried ids; for a listing page with zero message
elements it fails with the parse error. -/
theorem claim8_head_is_max (name : String) (page : ChannelPage)
    (hne : page.messages ≠ [])
    (hok : ∀ m ∈ page.messages, msgOk m = true) :
    (∃ ch, FetchChannel name page = ChannelResult.ok ch ∧
        ch.lastId ∈ page.messages.filterMap msgId ∧
        ∀ i ∈ page.messages.filterMap msgId, i ≤ ch.lastId) ∧
    (∀ (name2 : String) (t d : List String),
        FetchChannel name2 { messages := [], titleTexts := t, descriptionTexts := d } =
          ChannelResult.parseError) := by
  constructor
  · have hscan := scanLastId_eq_foldl page.messages hok (-1) (le_refl (-1))
    obtain ⟨m, hm⟩ := List.exists_mem_of_ne_nil page.messages hne
    have hok_m := hok m hm
    cases hmid : msgId m with
    | none =>
      simp only [msgOk, hmid] at hok_m
      exact Bool.noConfusion hok_m
    | some i0 =>
      have hi0 : i0 ∈ page.messages.filterMap msgId := List.mem_filterMap.2 ⟨m, hm, hmid⟩
      have hnn := filterMap_msgId_nonneg page.messages hok
      have hub := foldl_max_ub (page.messages.filterMap msgId) (-1)
      have hr0 : 0 ≤ (page.messages.filterMap msgId).foldl max (-1) :=
        le_trans (hnn i0 hi0) (hub i0 hi0)
      have hrne : ¬ ((page.messages.filterMap msgId).foldl max (-1) = -1) := by omega
      have hmem : (page.messages.filterMap msgId).foldl max (-1) ∈
          page.messages.filterMap msgId := by
        rcases foldl_max_mem (page.messages.filterMap msgId) (-1) with h | h
        · exact absurd h hrne
        · exact h
      refine ⟨{ name := name, title := lastText page.titleTexts,
                lastId := (page.messages.filterMap msgId).foldl max (-1),
                link := tgChannelFeedUrl name,
                description := lastText page.descriptionTexts }, ?_, hmem, hub⟩
      unfold FetchChannel
      rw [hscan]
      dsimp only
      rw [if_neg hrne]
  · intro name2 t d
    rfl

/-- Witness for claim C8 at the fixture scenario of the repository test
suite: ids 291, 293, 290 give head 293 and the empty page yields the parse
error. -/
theorem claim8_witness :
    (∃ ch, FetchChannel "lexfridman" c8page = ChannelResult.ok ch ∧
        ch.lastId ∈ c8page.messages.filterMap msgId ∧
        ∀ i ∈ c8page.messages.filterMap msgId, i ≤ ch.lastId) ∧
    (∀ (name2 : String) (t d : List String),
        FetchChannel name2 { messages := [], titleTexts := t, descriptionTexts := d } =
          ChannelResult.parseError) :=
  claim8_head_is_max "lexfridman" c8page (by decide) (by decide)

/-- Claim C9: when the walk reaches the candidate id cursor+1 and its fetch
succeeds with an item that is not an adjacent duplicate, the walk hands
that id to the fetcher but then stops at the boundary break without
appending the item, so the item is in the fetch trace and absent from the
collected posts of that sync. -/
theorem claim9_boundary_discard (fp : Int → Option Post) (cached : Int)
    (posts : List Post) (fetched : List Int) (p : Post)
    (hc : 0 ≤ cached)
    (hlen : posts.length < MAX_RSS_POSTS_COUNT)
    (hfp : fp (cached + 1) = some p)
    (hdup : posts.getLast?.map Post.createdAt ≠ some p.createdAt) :
    walk fp cached (cached + 1) posts fetched = (posts, fetched ++ [cached + 1]) := by
  unfold walk
  have ht : (cached + 1).toNat = cached.toNat + 1 := by omega
  rw [ht, walkAux]
  rw [if_pos ⟨by omega, hlen⟩]
  rw [hfp]
  dsimp only
  rw [if_neg hdup]
  rw [if_pos (by omega : cached + 1 - 1 = cached)]

/-- Witness for claim C9: cursor 2, candidate 3 fetches successfully, the
walk records the fetch of id 3 and returns with nothing collected. -/
theorem claim9_witness :
    walk c9fp 2 (2 + 1) [] [] = ([], [] ++ [2 + 1]) :=
  claim9_boundary_discard c9fp 2 [] [] c9post (by decide) (by decide) (by decide) (by decide)

/-- Claim C10: the head lookup aborts (index out of range on the split of
the data-post attribute) on a concrete listing page containing a message
without a slash, and it never aborts when every observed message attribute
contains a slash. -/
theorem claim10_no_slash_panics :
    FetchChannel "lexfridman" c10page = ChannelResult.panic ∧
    (∀ (name : String) (page : ChannelPage),
        (∀ m ∈ page.messages, '/' ∈ m.toList) →
          FetchChannel name page ≠ ChannelResult.panic) := by
  constructor
  · decide
  · intro name page hall
    unfold FetchChannel
    have hs := scanLastId_isSome page.messages hall (-1)
    cases hsc : scanLastId page.messages (-1) with
    | none =>
      rw [hsc] at hs
      exact absurd hs (by simp)
    | some v =>
      dsimp only
      split
      · exact fun h => ChannelResult.noConfusion h
      · exact fun h => ChannelResult.noConfusion h
